import Mathlib

/-!
  Verification development for the land-scraper content script
  (content.js of the Anusara14/land-scraper repository).

  The JavaScript source is shallowly embedded: JS strings are modelled as
  `List Char` (obtained from `String.data`), JS numbers as `ℚ` (the source
  only performs exact decimal arithmetic on the inputs of interest; IEEE
  rounding is not modelled), absent values (`null`/`undefined`/`NaN`) as
  `Option`, and the regular expressions of the source as explicit
  first-match scanners implementing the same semantics on the inputs the
  source meets.  DOM documents and listing cards are modelled as records
  whose fields hold what the corresponding `querySelector` calls of the
  source would return.
-/

namespace LandScraper

/-- JS whitespace test (`\s` / `trim`); the source only meets ASCII
whitespace, which `Char.isWhitespace` covers. -/
def isWs (c : Char) : Bool := c.isWhitespace

/-- JS word character (regex `\w`): ASCII letter, digit or underscore. -/
def isWordChar (c : Char) : Bool := c.isAlphanum || c = '_'

/-- JS `String.prototype.toLowerCase` (ASCII inputs). -/
def toLowerStr (cs : List Char) : List Char := cs.map Char.toLower

/-- JS `String.prototype.trim`. -/
def jsTrim (cs : List Char) : List Char :=
  ((cs.dropWhile isWs).reverse.dropWhile isWs).reverse

/-- Literal-list test: `pat` occurs at the head of `cs`. -/
def startsList : List Char → List Char → Bool
  | [], _ => true
  | _ :: _, [] => false
  | p :: ps, c :: cs => p = c && startsList ps cs

/-- Case-insensitive head test; `pat` is given in lowercase. -/
def startsCI : List Char → List Char → Bool
  | [], _ => true
  | _ :: _, [] => false
  | p :: ps, c :: cs => p = c.toLower && startsCI ps cs

/-- JS `String.prototype.includes` (substring containment). -/
def containsList : List Char → List Char → Bool
  | [], pat => pat.isEmpty
  | c :: rest, pat => startsList pat (c :: rest) || containsList rest pat

/-- Decimal digit run folded into a natural number. -/
def digitsToNat : List Char → Nat → Nat
  | [], acc => acc
  | c :: cs, acc => digitsToNat cs (acc * 10 + (c.toNat - 48))

/-!  The ambient library marks the `Rat` ring operations (`add`, `mul`,
`inv`, `div`, `ofScientific`) `@[irreducible]`, which blocks kernel
evaluation by `decide`.  The embedding therefore computes every rational
it builds through `mkRat` / the `Rat` representation directly; each
helper below denotes the exact same rational as the arithmetic it
replaces. -/

/-- The rational denoted by a decimal digit string: integer part `ip`,
fraction digits `fr` of length `k`, i.e. `(ip*10^k + fr) / 10^k`. -/
def decValue (ip fr k : Nat) : ℚ := mkRat (ip * 10 ^ k + fr) (10 ^ k)

/-- `a * n` for an integer factor `n` (exact). -/
def qscale (a : ℚ) (n : ℤ) : ℚ := mkRat (a.num * n) a.den

/-- `a / n` for a natural divisor `n` (exact). -/
def qdivNat (a : ℚ) (n : Nat) : ℚ := mkRat a.num (a.den * n)

/-- Exact rational multiplication. -/
def qmul (a b : ℚ) : ℚ := mkRat (a.num * b.num) (a.den * b.den)

/-- Exact rational division; every dividing path of the source guards the
divisor away from zero (`mkRat n 0 = 0` covers the unreachable case). -/
def qdiv (a b : ℚ) : ℚ :=
  let n := a.num * (b.den : ℤ)
  let d := (a.den : ℤ) * b.num
  if d < 0 then mkRat (-n) (-d).toNat else mkRat n d.toNat

/-- Parse the regex fragment `\d+\.?\d*` at the head of the input: one or
more digits, an optional dot, optional further digits.  Returns the value
together with the unconsumed rest of the input. -/
def parseUDec (cs : List Char) : Option (ℚ × List Char) :=
  let ds := cs.takeWhile Char.isDigit
  let rest := cs.dropWhile Char.isDigit
  if ds.isEmpty then none
  else
    match rest with
    | '.' :: r =>
        let fs := r.takeWhile Char.isDigit
        let r2 := r.dropWhile Char.isDigit
        some (decValue (digitsToNat ds 0) (digitsToNat fs 0) fs.length, r2)
    | _ => some (decValue (digitsToNat ds 0) 0 0, rest)

/-- Parse the regex fragment `-?\d+\.?\d*` at the head of the input. -/
def parseSDec (cs : List Char) : Option (ℚ × List Char) :=
  match cs with
  | '-' :: r => (parseUDec r).map (fun p => (-p.1, p.2))
  | _ => parseUDec cs

/-- First-match regex search: try the positional matcher at every start
position, left to right, exactly as the JS regex engine advances its start
position (none of the scanners below needs backtracking to agree with the
engine on the pattern shapes of the source). -/
def scanFirst {α : Type} (m : List Char → Option α) : List Char → Option α
  | [] => none
  | c :: cs =>
    match m (c :: cs) with
    | some a => some a
    | none => scanFirst m cs

/-- JS `Math.round`: `⌊q + 1/2⌋`, half-up rounding also for negative
arguments, computed as the integer floor division `(2*num + den) fdiv
(2*den)` on the reduced representation. -/
def jsRound (q : ℚ) : ℚ := (((2 * q.num + (q.den : ℤ)).fdiv (2 * (q.den : ℤ))) : ℚ)

/-- JS truthiness of a nullable number: `null`, `0` and `NaN` are falsy. -/
def jsTruthy (o : Option ℚ) : Bool :=
  match o with
  | some x => x != 0
  | none => false

/-- JS arithmetic coercion of a nullable number: `null` becomes `0`. -/
def jsNum (o : Option ℚ) : ℚ := o.getD 0

/-- Exponent suffix of JS `parseFloat` (`e`/`E`, optional sign, digits);
yields 0 when no well-formed exponent follows, as `parseFloat` then stops
before the `e`. -/
def parseExpDigits (cs : List Char) : ℤ :=
  match cs with
  | '-' :: r =>
    let es := r.takeWhile Char.isDigit
    if es.isEmpty then 0 else -(digitsToNat es 0 : ℤ)
  | '+' :: r =>
    let es := r.takeWhile Char.isDigit
    if es.isEmpty then 0 else (digitsToNat es 0 : ℤ)
  | _ =>
    let es := cs.takeWhile Char.isDigit
    if es.isEmpty then 0 else (digitsToNat es 0 : ℤ)

/-- JS `parseFloat`: skip leading whitespace, optional sign, digits with
optional fraction (at least one digit overall), optional exponent,
trailing garbage ignored; an unparseable head (JS `NaN`) becomes `none`.
The `Infinity` literal is not representable in `ℚ` and no input reachable
from this code base produces it; the model treats it as unparseable. -/
def jsParseFloat (cs0 : List Char) : Option ℚ :=
  let cs := cs0.dropWhile isWs
  let neg : Bool := match cs with | '-' :: _ => true | _ => false
  let cs1 : List Char := match cs with
    | '-' :: r => r
    | '+' :: r => r
    | _ => cs
  let ds := cs1.takeWhile Char.isDigit
  let cs2 := cs1.dropWhile Char.isDigit
  let fs : List Char := match cs2 with
    | '.' :: r => r.takeWhile Char.isDigit
    | _ => []
  let cs3 : List Char := match cs2 with
    | '.' :: r => r.dropWhile Char.isDigit
    | _ => cs2
  if ds.isEmpty && fs.isEmpty then none
  else
    let mant : ℚ := decValue (digitsToNat ds 0) (digitsToNat fs 0) fs.length
    let mant1 : ℚ := if neg then -mant else mant
    let e : ℤ := match cs3 with
      | 'e' :: r => parseExpDigits r
      | 'E' :: r => parseExpDigits r
      | _ => 0
    some (if 0 ≤ e then qscale mant1 (10 ^ e.toNat) else qdivNat mant1 (10 ^ (-e).toNat))

/-- content.js line 136: `priceText.replace(/Rs\.?|LKR|,|\s/gi, '')`.
Global case-insensitive replace; at each position the alternatives
`Rs\.?`, `LKR`, `,`, `\s` are tried in that order (the `?` is greedy, so
"Rs." is consumed with its dot).  The subsequent `.trim()` of the source
is a no-op because every whitespace character has already been removed. -/
def stripCurrencyAux : Nat → List Char → List Char
  | 0, _ => []
  | _ + 1, [] => []
  | fuel + 1, c :: cs =>
    if c.toLower = 'r' then
      match cs with
      | c2 :: cs2 =>
        if c2.toLower = 's' then
          match cs2 with
          | '.' :: cs3 => stripCurrencyAux fuel cs3
          | _ => stripCurrencyAux fuel cs2
        else c :: stripCurrencyAux fuel cs
      | [] => [c]
    else if c.toLower = 'l' then
      match cs with
      | c2 :: c3 :: cs3 =>
        if c2.toLower = 'k' && c3.toLower = 'r' then stripCurrencyAux fuel cs3
        else c :: stripCurrencyAux fuel cs
      | _ => c :: stripCurrencyAux fuel cs
    else if c = ',' || isWs c then stripCurrencyAux fuel cs
    else c :: stripCurrencyAux fuel cs

/-- Entry point: every step of the scan consumes at least one character,
so the input length bounds the number of steps (structural fuel keeps
the definition kernel-computable). -/
def stripCurrency (l : List Char) : List Char := stripCurrencyAux l.length l

/-- Positional matcher for `/(\d+\.?\d*)M/i` (content.js line 139). -/
def mSuffixAt (cs : List Char) : Option ℚ :=
  match parseUDec cs with
  | some (v, c :: _) => if c.toLower = 'm' then some v else none
  | _ => none

/-- Positional matcher for `/(\d+\.?\d*)\s*lakhs?/i` (content.js line 145). -/
def lakhAt (cs : List Char) : Option ℚ :=
  match parseUDec cs with
  | some (v, rest) =>
    if startsCI [ 'l', 'a', 'k', 'h'] (rest.dropWhile isWs) then some v else none
  | none => none

/-- Positional matcher for `/(\d+\.?\d*)\s*crore/i` (content.js line 151). -/
def croreAt (cs : List Char) : Option ℚ :=
  match parseUDec cs with
  | some (v, rest) =>
    if startsCI [ 'c', 'r', 'o', 'r', 'e'] (rest.dropWhile isWs) then some v else none
  | none => none

/-- content.js lines 132-159 (`parsePrice`).  Note that the `M` suffix is
searched in the stripped text `cleaned`, while the `lakh` and `crore`
suffixes are searched in the original, unstripped `priceText`. -/
def parsePrice (priceText : String) : Option ℚ :=
  if priceText = "" then none
  else
    let cleaned := stripCurrency priceText.data
    match scanFirst mSuffixAt cleaned with
    | some v => some (jsRound (qscale v 1000000))
    | none =>
      match scanFirst lakhAt priceText.data with
      | some v => some (jsRound (qscale v 100000))
      | none =>
        match scanFirst croreAt priceText.data with
        | some v => some (jsRound (qscale v 10000000))
        | none => (jsParseFloat cleaned).map jsRound

/-- Positional matcher for `/(\d+\.?\d*)\s*(?:perch|perches|p\b)/i`
(content.js line 171); the input is already lowercased.  The alternative
"perch" subsumes "perches"; a lone "p" needs a following non-word
character or the end of the input (`\b`). -/
def perchAt (cs : List Char) : Option ℚ :=
  match parseUDec cs with
  | some (v, rest) =>
    let r := rest.dropWhile isWs
    if startsList [ 'p', 'e', 'r', 'c', 'h'] r then some v
    else
      match r with
      | 'p' :: [] => some v
      | 'p' :: c :: _ => if isWordChar c then none else some v
      | _ => none
  | none => none

/-- Positional matcher for `/(\d+\.?\d*)\s*(?:acre|acres|ac)/i`
(content.js line 177); the alternative "ac" subsumes the other two. -/
def acreAt (cs : List Char) : Option ℚ :=
  match parseUDec cs with
  | some (v, rest) =>
    if startsList [ 'a', 'c'] (rest.dropWhile isWs) then some v else none
  | none => none

/-- Positional matcher for `/(\d+\.?\d*)\s*(?:rood|roods|r\b)/i`
(content.js line 183). -/
def roodAt (cs : List Char) : Option ℚ :=
  match parseUDec cs with
  | some (v, rest) =>
    let r := rest.dropWhile isWs
    if startsList [ 'r', 'o', 'o', 'd'] r then some v
    else
      match r with
      | 'r' :: [] => some v
      | 'r' :: c :: _ => if isWordChar c then none else some v
      | _ => none
  | none => none

/-- content.js lines 165-189 (`parseSize`): perches first, then acres
(×160), then roods (×40); `none` when no unit token matches. -/
def parseSize (sizeText : String) : Option ℚ :=
  if sizeText = "" then none
  else
    let lower := toLowerStr sizeText.data
    match scanFirst perchAt lower with
    | some v => some v
    | none =>
      match scanFirst acreAt lower with
      | some v => some (qscale v 160)
      | none => (scanFirst roodAt lower).map (fun v => qscale v 40)

/-- content.js lines 195-217 (`calculatePricePerPerch`).  The guard is JS
`!price || !size || size <= 0`: by JS truthiness `!price` also fires on a
present price of `0` (the `!size` part is subsumed by `size <= 0`). -/
def calculatePricePerPerch (price size : Option ℚ) (isPricePerPerch : Bool) : Option ℚ :=
  match price, size with
  | some p, some s =>
    if p = 0 ∨ s ≤ 0 then none
    else if isPricePerPerch then some p
    else if 5000000 < p ∧ s < 50 then some (jsRound (qdiv p s))
    else if p < 500000 then some p
    else if 1000000 < p then some (jsRound (qdiv p s))
    else some p
  | _, _ => none

/-- Latitude/longitude pair as the source's `{ lat, lng }` object. -/
structure Coords where
  lat : Option ℚ
  lng : Option ℚ
deriving DecidableEq, Repr

/-- Positional matcher: the literal `pat` followed by a signed decimal
pair `(-?\d+\.?\d*),(-?\d+\.?\d*)` (the shape shared by the three URL
coordinate patterns of content.js lines 226-230). -/
def coordPairAt (pat : List Char) (cs : List Char) : Option (ℚ × ℚ) :=
  if startsList pat cs then
    match parseSDec (cs.drop pat.length) with
    | some (a, ',' :: r) =>
      match parseSDec r with
      | some (b, _) => some (a, b)
      | none => none
    | _ => none
  else none

/-- content.js lines 222-243 (`extractCoordsFromGoogleMaps`): the patterns
`place\/...`, `@...`, `q=...` are each searched over the whole URL, in
that order, first successful pattern wins; there is no geographic-bounds
validation at this stage. -/
def extractCoordsFromGoogleMaps (url : String) : Coords :=
  if url = "" then ⟨none, none⟩
  else
    match scanFirst (coordPairAt [ 'p', 'l', 'a', 'c', 'e', '/']) url.data with
    | some (a, b) => ⟨some a, some b⟩
    | none =>
      match scanFirst (coordPairAt [ '@']) url.data with
      | some (a, b) => ⟨some a, some b⟩
      | none =>
        match scanFirst (coordPairAt [ 'q', '=']) url.data with
        | some (a, b) => ⟨some a, some b⟩
        | none => ⟨none, none⟩

/-- The Sri Lanka bounding box test used by the validating extraction
paths: `lat >= 5.9 && lat <= 9.9 && lng >= 79.5 && lng <= 81.9`
(content.js lines 262, 439, 456). -/
def inSriLanka (la lo : ℚ) : Bool :=
  decide (mkRat 59 10 ≤ la) && decide (la ≤ mkRat 99 10) &&
    decide (mkRat 795 10 ≤ lo) && decide (lo ≤ mkRat 819 10)

/-- First `some` produced by `f` over a list, in order (the shape of the
source's `for ... return` loops). -/
def firstSome {α β : Type} (f : α → Option β) : List α → Option β
  | [] => none
  | a :: rest =>
    match f a with
    | some b => some b
    | none => firstSome f rest

/-- Separator class of content.js line 77: `/[,\-\/\|>→]/`. -/
def isSep (c : Char) : Bool :=
  c = ',' || c = '-' || c = '/' || c = '|' || c = '>' || c = '→'

/-- JS `String.prototype.split` on the separator class. -/
def splitSepAux : List Char → List Char → List (List Char)
  | [], acc => [acc.reverse]
  | c :: cs, acc =>
    if isSep c then acc.reverse :: splitSepAux cs []
    else splitSepAux cs (c :: acc)

/-- JS object key lookup in the GND mapping, modelled as first match in an
association list (object keys are unique). -/
def assocLookup (entries : List (String × String)) (k : List Char) : Option String :=
  firstSome (fun e => if e.1.data = k then some e.2 else none) entries

/-- Tier 1 (content.js lines 82-87): exact key lookup of each part in
order; `if (GND_MC_MAPPING[part])` returns only a truthy (non-empty)
value and otherwise keeps scanning. -/
def gndExact (entries : List (String × String)) (parts : List (List Char)) : Option String :=
  firstSome (fun p =>
    match assocLookup entries p with
    | some mc => if mc = "" then none else some mc
    | none => none) parts

/-- Tier 2 (content.js lines 90-96): for each part in order, the first
mapping entry whose key contains the part or is contained in it. -/
def gndSubstrPart (entries : List (String × String)) (parts : List (List Char)) : Option String :=
  firstSome (fun part =>
    firstSome (fun e =>
      if containsList part e.1.data || containsList e.1.data part then some e.2 else none)
      entries) parts

/-- Tier 3 (content.js lines 99-103): first mapping key contained in the
full lowercased text. -/
def gndSubstrFull (entries : List (String × String)) (lower : List Char) : Option String :=
  firstSome (fun e => if containsList lower e.1.data then some e.2 else none) entries

/-- content.js lines 107-108. -/
def kaduwelaAreas : List String :=
  ["battaramulla", "pelawatta", "thalawathugoda", "malabe",
   "athurugiriya", "kaduwela", "ranala", "hewagama", "hokandara"]

/-- content.js lines 113-114. -/
def kotteAreas : List String :=
  ["rajagiriya", "ethul kotte", "etul kotte", "pita kotte",
   "nawala", "nugegoda", "pagoda", "gangodawila", "welikada"]

/-- content.js lines 119-120. -/
def colomboAreas : List String :=
  ["mattakkuliya", "modara", "borella", "cinnamon gardens",
   "havelock town", "wellawatta", "wellawatte", "pamankada", "kirulapona", "colombo"]

/-- content.js lines 107-125: the three hardcoded area-name lists matched
by substring against the full lowercased text, then the sentinel
"Other". -/
def fallbackMC (lower : List Char) : String :=
  if kaduwelaAreas.any (fun a => containsList lower a.data) then "Kaduwela MC"
  else if kotteAreas.any (fun a => containsList lower a.data) then "Sri Jayawardenepura Kotte MC"
  else if colomboAreas.any (fun a => containsList lower a.data) then "Colombo MC"
  else "Other"

/-- content.js lines 72-126 (`getMunicipalCouncil`).  The static
`GND_MC_MAPPING` table lives in a separate collaborator file
(gnd_mapping.js); it is passed here as an optional association list,
`none` modelling `typeof GND_MC_MAPPING === 'undefined'`. -/
def getMunicipalCouncil (gnd : Option (List (String × String))) (locationText : String) : String :=
  if locationText = "" then "Unknown"
  else
    let lower := jsTrim (toLowerStr locationText.data)
    let parts := ((splitSepAux lower []).map jsTrim).filter (fun p => !p.isEmpty)
    let viaGnd : Option String :=
      match gnd with
      | some entries =>
        match gndExact entries parts with
        | some mc => some mc
        | none =>
          match gndSubstrPart entries parts with
          | some mc => some mc
          | none => gndSubstrFull entries lower
      | none => none
    match viaGnd with
    | some mc => mc
    | none => fallbackMC lower

/-- Whether any resolution tier of `getMunicipalCouncil` matches: one of
the three GND-mapping tiers (when the mapping is loaded) or one of the
three hardcoded area lists. -/
def mcAnyMatch (gnd : Option (List (String × String))) (locationText : String) : Bool :=
  let lower := jsTrim (toLowerStr locationText.data)
  let parts := ((splitSepAux lower []).map jsTrim).filter (fun p => !p.isEmpty)
  let viaGnd : Bool :=
    match gnd with
    | some entries =>
      (gndExact entries parts).isSome || (gndSubstrPart entries parts).isSome ||
        (gndSubstrFull entries lower).isSome
    | none => false
  viaGnd || kaduwelaAreas.any (fun a => containsList lower a.data) ||
    kotteAreas.any (fun a => containsList lower a.data) ||
    colomboAreas.any (fun a => containsList lower a.data)

/-- One scraped listing record as built by the two site adapters
(content.js lines 709-723 and 911-925).  `scrapedAt` is the wall-clock
timestamp `new Date().toISOString()`, passed in as a parameter. -/
structure Listing where
  title : String
  address : String
  priceRaw : String
  priceTotal : Option ℚ
  pricePerPerch : Option ℚ
  sizePerches : Option ℚ
  url : String
  latitude : Option ℚ
  longitude : Option ℚ
  postedDate : Option String
  source : String
  municipalCouncil : String
  scrapedAt : String
deriving DecidableEq, Repr

/-- content.js lines 1095-1129 (`saveListings`): load the stored
collection, build the set of stored URLs, keep only incoming records
whose URL is not already stored, append them in order, persist the
combined collection.  Modelled as the pure store-update function. -/
def saveListings (existing newListings : List Listing) : List Listing :=
  let existingUrls := existing.map Listing.url
  existing ++ newListings.filter (fun l => !decide (l.url ∈ existingUrls))

/-! ### Detail page enricher (content.js lines 277-468) -/

/-- The two supported sites (content.js `detectSite`). -/
inductive Site
  | ikman
  | lpw
deriving DecidableEq, Repr

/-- Result record of `fetchDetailPageInfo`. -/
structure DetailInfo where
  lat : Option ℚ
  lng : Option ℚ
  postedDate : Option String
  address : Option String
deriving DecidableEq, Repr

/-- A fetched detail document, holding what the `querySelector` /
`textContent` calls of `fetchDetailPageInfo` would find in it:
`bodyText` is `doc.body.textContent`, `breadcrumbTexts` the texts of the
breadcrumb links, `locElementTexts` the element texts per
location-selector (one inner list per selector), `mapLinkHref` /
`mapIframeSrc` the first matching map link / iframe, `scriptCoords` for
each script the latitude/longitude pairs its four coordinate regexes
yield in pattern order (the regex matching itself is abstracted to the
pairs it produces), and `dataAttrCoords` the `parseFloat`-ed
`data-lat`/`data-lng` attributes (`none` covers both an absent container
and NaN values). -/
structure DetailDoc where
  bodyText : String
  breadcrumbTexts : List String
  locElementTexts : List (List String)
  mapLinkHref : Option String
  mapIframeSrc : Option String
  scriptCoords : List (List (ℚ × ℚ))
  dataAttrCoords : Option (ℚ × ℚ)

/-- Outcome of the `fetch` of a detail page: a transport error (the catch
block) or a response with its `ok` flag and parsed document. -/
inductive FetchOutcome
  | networkError
  | response (ok : Bool) (doc : DetailDoc)

/-- Prelude of the two "posted on" patterns after the literal `posted`:
`\s*(?:on)?\s*[:.]?\s*` followed by the date capture `cap`; the optional
tokens backtrack in JS preference order (consume first). -/
def afterPosted (cap : List Char → Option (List Char)) (cs : List Char) :
    Option (List Char) :=
  let cs1 := cs.dropWhile isWs
  let onBranches := (if startsCI [ 'o', 'n'] cs1 then [cs1.drop 2] else []) ++ [cs1]
  firstSome (fun b =>
    let b1 := b.dropWhile isWs
    let pBranches := (match b1 with
      | ':' :: r => [r]
      | '.' :: r => [r]
      | _ => []) ++ [b1]
    firstSome (fun p => cap (p.dropWhile isWs)) pBranches) onBranches

/-- Date capture `\d{1,2}\s+\w{3,}\s+\d{4}` (content.js line 306).  A
digit run of length 3 or more fails the position outright, exactly as the
JS engine does after exhausting the `{1,2}` backtracking (the next
character is then still a digit, never whitespace). -/
def dateCap1 (cs : List Char) : Option (List Char) :=
  let ds := cs.takeWhile Char.isDigit
  if ds.isEmpty || decide (2 < ds.length) then none
  else
    let r1 := cs.drop ds.length
    let ws1 := r1.takeWhile isWs
    if ws1.isEmpty then none
    else
      let r2 := r1.drop ws1.length
      let ww := r2.takeWhile isWordChar
      if decide (ww.length < 3) then none
      else
        let r3 := r2.drop ww.length
        let ws2 := r3.takeWhile isWs
        if ws2.isEmpty then none
        else
          let d2 := (r3.drop ws2.length).takeWhile Char.isDigit
          if decide (d2.length < 4) then none
          else some (ds ++ ws1 ++ ww ++ ws2 ++ d2.take 4)

/-- Date capture `\d{1,2}[-\/]\d{1,2}[-\/]\d{2,4}` (content.js line 307). -/
def dateCap2 (cs : List Char) : Option (List Char) :=
  let ds := cs.takeWhile Char.isDigit
  if ds.isEmpty || decide (2 < ds.length) then none
  else
    match cs.drop ds.length with
    | s1 :: r1 =>
      if s1 = '-' || s1 = '/' then
        let d2 := r1.takeWhile Char.isDigit
        if d2.isEmpty || decide (2 < d2.length) then none
        else
          match r1.drop d2.length with
          | s2 :: r2 =>
            if s2 = '-' || s2 = '/' then
              let d3 := r2.takeWhile Char.isDigit
              if decide (d3.length < 2) then none
              else some (ds ++ [s1] ++ d2 ++ [s2] ++ d3.take 4)
            else none
          | [] => none
      else none
    | [] => none

/-- The twelve month literals of content.js line 308, lowercased. -/
def monthLits : List (List Char) :=
  [[ 'j', 'a', 'n'], [ 'f', 'e', 'b'], [ 'm', 'a', 'r'], [ 'a', 'p', 'r'],
   [ 'm', 'a', 'y'], [ 'j', 'u', 'n'], [ 'j', 'u', 'l'], [ 'a', 'u', 'g'],
   [ 's', 'e', 'p'], [ 'o', 'c', 't'], [ 'n', 'o', 'v'], [ 'd', 'e', 'c']]

/-- Date capture `\d{1,2}\s+(?:Jan|...|Dec)\w*\s+\d{4}` (content.js line
308), case-insensitive. -/
def dateCap3 (cs : List Char) : Option (List Char) :=
  let ds := cs.takeWhile Char.isDigit
  if ds.isEmpty || decide (2 < ds.length) then none
  else
    let r1 := cs.drop ds.length
    let ws1 := r1.takeWhile isWs
    if ws1.isEmpty then none
    else
      let r2 := r1.drop ws1.length
      if monthLits.any (fun m => startsCI m r2) then
        let mon := r2.take 3
        let ww := (r2.drop 3).takeWhile isWordChar
        let r3 := (r2.drop 3).drop ww.length
        let ws2 := r3.takeWhile isWs
        if ws2.isEmpty then none
        else
          let d2 := (r3.drop ws2.length).takeWhile Char.isDigit
          if decide (d2.length < 4) then none
          else some (ds ++ ws1 ++ mon ++ ww ++ ws2 ++ d2.take 4)
      else none

/-- Positional matchers of the two `posted ...` patterns (the capture
group only, which is all `parsePostedDate` receives). -/
def postedCap1At (cs : List Char) : Option (List Char) :=
  if startsCI [ 'p', 'o', 's', 't', 'e', 'd'] cs then afterPosted dateCap1 (cs.drop 6) else none

def postedCap2At (cs : List Char) : Option (List Char) :=
  if startsCI [ 'p', 'o', 's', 't', 'e', 'd'] cs then afterPosted dateCap2 (cs.drop 6) else none

/-- The seven unit literals of `/(\d+)\s*(second|minute|hour|day|week|month|year)s?\s*ago/i`,
lowercased (which is also what the source lowercases the captured unit
to). -/
def relUnits : List String :=
  ["second", "minute", "hour", "day", "week", "month", "year"]

/-- Positional matcher for the relative-date pattern (content.js line
324): amount and lowercased unit. -/
def relAt (cs : List Char) : Option (Nat × String) :=
  let ds := cs.takeWhile Char.isDigit
  if ds.isEmpty then none
  else
    let r1 := (cs.drop ds.length).dropWhile isWs
    match firstSome (fun u => if startsCI u.data r1 then some u else none) relUnits with
    | some u =>
      let r2 := r1.drop u.length
      let sBranches := (match r2 with
        | c :: r => if c.toLower = 's' then [r] else []
        | [] => []) ++ [r2]
      match firstSome (fun b =>
          if startsCI [ 'a', 'g', 'o'] (b.dropWhile isWs) then some () else none) sBranches with
      | some _ => some (digitsToNat ds 0, u)
      | none => none
    | none => none

/-- `\bword\b` case-insensitive containment test, tracking the previous
character for the left word boundary. -/
def containsWordAux (w : List Char) (prev : Option Char) : List Char → Bool
  | [] => false
  | c :: cs =>
    ((match prev with
        | some p => !isWordChar p
        | none => true) &&
     startsCI w (c :: cs) &&
     (match (c :: cs).drop w.length with
      | [] => true
      | n :: _ => !isWordChar n)) ||
    containsWordAux w (some c) cs

def containsWord (w : List Char) (cs : List Char) : Bool :=
  containsWordAux w none cs

/-- content.js lines 301-338: posted-date extraction from the page text.
`parseDate` and `relDate` stand for the collaborators `parsePostedDate`
and `calculateRelativeDate`, which depend on the wall clock (`new Date`);
`today` is `new Date().toISOString().split('T')[0]`.  A pattern that
matches but whose capture `parsePostedDate` rejects falls through to the
next pattern, as in the source. -/
def extractPostedDate (parseDate : String → Option String)
    (relDate : Nat → String → Option String) (today : String)
    (allText : List Char) : Option String :=
  let p1 := (scanFirst postedCap1At allText).bind (fun c => parseDate (String.mk c))
  let p2 := (scanFirst postedCap2At allText).bind (fun c => parseDate (String.mk c))
  let p3 := (scanFirst dateCap3 allText).bind (fun c => parseDate (String.mk c))
  let viaAbs := p1 <|> p2 <|> p3
  let viaRel := match scanFirst relAt allText with
    | some (n, u) => relDate n u
    | none => none
  match viaAbs <|> viaRel with
  | some d => some d
  | none =>
    if containsWord [ 'y', 'e', 's', 't', 'e', 'r', 'd', 'a', 'y'] allText then relDate 1 "day"
    else if containsWord [ 't', 'o', 'd', 'a', 'y'] allText then some today
    else none

/-- Generic breadcrumb tokens skipped at content.js line 351. -/
def skipBreadcrumbTokens : List String :=
  ["home", "ikman", "all ads", "land", "property", "properties", "for sale"]

/-- content.js lines 345-361: breadcrumb link texts filtered, reversed
(most specific first) and joined with a comma. -/
def breadcrumbAddress (texts : List String) : Option String :=
  let parts := texts.filterMap (fun t =>
    let text := jsTrim t.data
    if !text.isEmpty &&
       !skipBreadcrumbTokens.any (fun s => toLowerStr text = s.data) &&
       decide (1 < text.length) && decide (text.length < 50)
    then some text else none)
  if parts.isEmpty then none
  else some (String.mk ((parts.reverse).foldr
    (fun p acc => if acc.isEmpty then p else p ++ [ ',', ' '] ++ acc) []))

/-- Positional matcher for
`/(?:location|area|district)\s*[:.]?\s*(.+)/i` (content.js line 383); the
capture runs to the end of the line (`.` does not cross a newline).  When
the text after the label is only whitespace the JS engine backtracks
`\s*` and captures a single whitespace character, which trims to the same
empty result the no-punctuation branch produces here. -/
def locLabelAt (cs : List Char) : Option (List Char) :=
  let rest : Option (List Char) :=
    if startsCI [ 'l', 'o', 'c', 'a', 't', 'i', 'o', 'n'] cs then some (cs.drop 8)
    else if startsCI [ 'a', 'r', 'e', 'a'] cs then some (cs.drop 4)
    else if startsCI [ 'd', 'i', 's', 't', 'r', 'i', 'c', 't'] cs then some (cs.drop 8)
    else none
  match rest with
  | some r =>
    let r1 := r.dropWhile isWs
    let pBranches := (match r1 with
      | ':' :: r2 => [r2]
      | '.' :: r2 => [r2]
      | _ => []) ++ [r1]
    firstSome (fun b =>
      let b1 := b.dropWhile isWs
      let cap := b1.takeWhile (fun c => c ≠ '\n' && c ≠ '\r')
      if cap.isEmpty then none else some cap) pBranches
  | none => none

/-- content.js lines 364-392: fallback address from dedicated location
elements; one inner list per selector, the first passing text of a
selector ends that selector's scan.  The source assigns the (possibly
empty) trimmed capture and keeps scanning while it is falsy; every
consumer treats the empty string like an absent address, and the model
returns `none` in that case. -/
def locElemAddress (groups : List (List String)) : Option String :=
  firstSome (fun grp =>
    match firstSome (fun t =>
        let text := jsTrim t.data
        let lt := toLowerStr text
        if !text.isEmpty && decide (3 < text.length) && decide (text.length < 100) &&
           !containsList lt [ 'c', 'h', 'a', 't'] &&
           !containsList lt [ 'l', 'o', 'g', 'i', 'n'] &&
           !containsList lt [ 'p', 'o', 's', 't', ' ', 'y', 'o', 'u', 'r']
        then some (match scanFirst locLabelAt text with
          | some cap => String.mk (jsTrim cap)
          | none => String.mk text)
        else none) grp with
    | some a => if a = "" then none else some a
    | none => none) groups

/-- content.js lines 397-416: coordinates from a map link or iframe URL;
assigned only when both parts are truthy, otherwise the previous value is
kept. -/
def mapUrlCoordsOr (href : Option String) (prev : Option ℚ × Option ℚ) :
    Option ℚ × Option ℚ :=
  match href with
  | some h =>
    let c := extractCoordsFromGoogleMaps h
    if jsTruthy c.lat && jsTruthy c.lng then (c.lat, c.lng) else prev
  | none => prev

/-- content.js lines 419-448: first in-bounds pair over the scripts (an
out-of-bounds regex match moves on to the next pattern / script). -/
def scriptCoordsScan (scripts : List (List (ℚ × ℚ))) : Option (ℚ × ℚ) :=
  firstSome (fun pats => pats.find? (fun p => inSriLanka p.1 p.2)) scripts

/-- content.js lines 451-461: `data-lat`/`data-lng` attributes, accepted
only when truthy and inside the Sri Lanka box. -/
def dataAttrStep (attr : Option (ℚ × ℚ)) (prev : Option ℚ × Option ℚ) :
    Option ℚ × Option ℚ :=
  match attr with
  | some (a, b) =>
    if (a != 0) && (b != 0) && inSriLanka a b then (some a, some b) else prev
  | none => prev

/-- content.js lines 277-468 (`fetchDetailPageInfo`).  The whole body of
the source function sits in a `try` whose `catch` returns the all-absent
record, so the embedding is a total function — it never raises.  A non-ok
response returns the all-absent record before any parsing.  Later
coordinate stages run only while `result.lat` is falsy (`!result.lat`). -/
def fetchDetailPageInfo (parseDate : String → Option String)
    (relDate : Nat → String → Option String) (today : String)
    (site : Site) (out : FetchOutcome) : DetailInfo :=
  match out with
  | .networkError => ⟨none, none, none, none⟩
  | .response ok doc =>
    if !ok then ⟨none, none, none, none⟩
    else
      let postedDate :=
        if site = Site.ikman then
          extractPostedDate parseDate relDate today doc.bodyText.data
        else none
      let address :=
        if site = Site.ikman then
          match breadcrumbAddress doc.breadcrumbTexts with
          | some a => some a
          | none => locElemAddress doc.locElementTexts
        else none
      let r1 := mapUrlCoordsOr doc.mapLinkHref (none, none)
      let r2 := if jsTruthy r1.1 then r1 else mapUrlCoordsOr doc.mapIframeSrc r1
      let r3 := if jsTruthy r2.1 then r2 else
        match scriptCoordsScan doc.scriptCoords with
        | some (a, b) => (some a, some b)
        | none => r2
      let r4 := if jsTruthy r3.1 then r3 else dataAttrStep doc.dataAttrCoords r3
      ⟨r4.1, r4.2, postedDate, address⟩

/-! ### Site adapters (content.js lines 567-988) -/

/-- `/per\s*perch/i` test applied to the raw price text (content.js lines
700 and 894). -/
def perPerchAt (cs : List Char) : Option Unit :=
  if startsCI [ 'p', 'e', 'r'] cs then
    if startsCI [ 'p', 'e', 'r', 'c', 'h'] ((cs.drop 3).dropWhile isWs) then some () else none
  else none

def isPricePerPerchText (s : String) : Bool :=
  (scanFirst perPerchAt s.data).isSome

/-- One ikman.lk listing card, holding what the `querySelector` calls of
`IkmanScraper.extractFromCard` would find: the resolved listing link
(`link.href`, empty when absent), the raw title text, the element texts
found by the location selectors in order, the raw price text, and the
card's full `textContent`. -/
structure IkmanCard where
  linkHref : String
  title : String
  locationCandidates : List String
  priceText : String
  fullText : String

/-- Location-candidate filter of content.js lines 655-672. -/
def ikmanLocFilter (t : String) : Option String :=
  let text := jsTrim t.data
  let lt := toLowerStr text
  if !text.isEmpty &&
     !containsList lt [ 'c', 'h', 'a', 't'] &&
     !containsList lt [ 'l', 'o', 'g', 'i', 'n'] &&
     !containsList lt [ 'p', 'o', 's', 't'] &&
     !containsList lt [ 's', 'e', 'a', 'r', 'c', 'h'] &&
     decide (2 < text.length) && decide (text.length < 100)
  then some (String.mk text) else none

/-- Positional matcher for `/\/ad\/([a-z\-]+)/i` (content.js line 677). -/
def adSlugAt (cs : List Char) : Option (List Char) :=
  if startsList [ '/', 'a', 'd', '/'] cs then
    let slug := (cs.drop 4).takeWhile (fun c => c.isAlpha || c = '-')
    if slug.isEmpty then none else some slug
  else none

/-- Global replace `/land|sale|for|property/gi` with the empty string
(content.js line 679), alternatives tried in order at each position. -/
def stripLocWordsAux : Nat → List Char → List Char
  | 0, _ => []
  | _ + 1, [] => []
  | fuel + 1, c :: cs =>
    if startsCI [ 'l', 'a', 'n', 'd'] (c :: cs) then stripLocWordsAux fuel (cs.drop 3)
    else if startsCI [ 's', 'a', 'l', 'e'] (c :: cs) then stripLocWordsAux fuel (cs.drop 3)
    else if startsCI [ 'f', 'o', 'r'] (c :: cs) then stripLocWordsAux fuel (cs.drop 2)
    else if startsCI [ 'p', 'r', 'o', 'p', 'e', 'r', 't', 'y'] (c :: cs) then stripLocWordsAux fuel (cs.drop 7)
    else c :: stripLocWordsAux fuel cs

/-- Entry point: each step consumes at least one character, so the input
length bounds the number of steps. -/
def stripLocWords (l : List Char) : List Char := stripLocWordsAux l.length l

/-- content.js lines 675-684: location from the URL slug — hyphens to
spaces, the noise words removed, trimmed, used only when longer than
two characters. -/
def urlLocFallback (url : String) : String :=
  match scanFirst adSlugAt url.data with
  | some slug =>
    let cleaned := jsTrim (stripLocWords (slug.map (fun c => if c = '-' then ' ' else c)))
    if decide (2 < cleaned.length) then String.mk cleaned else ""
  | none => ""

/-- Character class `[A-Za-z\s]` of the lazy title-location capture. -/
def isCapChar (c : Char) : Bool := c.isAlpha || isWs c

/-- Terminator `(?:\s*[-,]|\s+for|\s+land|$)` of content.js line 688. -/
def titleLocTerm (cs : List Char) : Bool :=
  (match cs.dropWhile isWs with
   | '-' :: _ => true
   | ',' :: _ => true
   | _ => false) ||
  (let ws := cs.takeWhile isWs
   !ws.isEmpty &&
     (startsCI [ 'f', 'o', 'r'] (cs.drop ws.length) ||
      startsCI [ 'l', 'a', 'n', 'd'] (cs.drop ws.length))) ||
  cs.isEmpty

/-- Lazy capture `([A-Za-z\s]+?)` : grow one character at a time until the
terminator matches. -/
def lazyCap : List Char → Option (List Char)
  | [] => none
  | c :: rest =>
    if isCapChar c then
      if titleLocTerm rest then some [c]
      else
        match lazyCap rest with
        | some more => some (c :: more)
        | none => none
    else none

/-- Positional matcher for
`/(?:in|at)\s+([A-Za-z\s]+?)(?:\s*[-,]|\s+for|\s+land|$)/i` (content.js
line 688): keyword, greedy whitespace, lazy capture.  (When the `\s+` run
is followed by a non-capture character the JS engine can backtrack into an
all-whitespace capture, which trims to the same empty location this model
reports by failing the position.) -/
def titleLocAt (cs : List Char) : Option (List Char) :=
  let kw : Option (List Char) :=
    if startsCI [ 'i', 'n'] cs then some (cs.drop 2)
    else if startsCI [ 'a', 't'] cs then some (cs.drop 2)
    else none
  match kw with
  | some rest =>
    let ws := rest.takeWhile isWs
    if ws.isEmpty then none else lazyCap (rest.drop ws.length)
  | none => none

/-- content.js lines 687-692. -/
def titleLocFallback (title : String) : String :=
  match scanFirst titleLocAt title.data with
  | some cap => String.mk (jsTrim cap)
  | none => ""

namespace IkmanScraper

/-- content.js lines 626-728 (`IkmanScraper.extractFromCard`).  `gnd` is
the optional static GND mapping, `now` the wall-clock timestamp for
`scrapedAt`.  Returns `none` when no `/ad/` URL resolves (the catch
branch of the source is unreachable for the modelled operations). -/
def extractFromCard (gnd : Option (List (String × String))) (now : String)
    (card : IkmanCard) : Option Listing :=
  let url := card.linkHref
  if url = "" || !containsList url.data [ '/', 'a', 'd', '/'] then none
  else
    let title := String.mk (jsTrim card.title.data)
    let loc0 : String :=
      match firstSome ikmanLocFilter card.locationCandidates with
      | some t => t
      | none => ""
    let loc1 := if loc0 = "" then urlLocFallback url else loc0
    let location := if loc1 = "" && title ≠ "" then titleLocFallback title else loc1
    let priceText := String.mk (jsTrim card.priceText.data)
    let price := parsePrice priceText
    let isPerPerch := isPricePerPerchText priceText
    let size := parseSize card.fullText
    let pricePerPerch := calculatePricePerPerch price size isPerPerch
    some {
      title := title
      address := location
      priceRaw := priceText
      priceTotal := if isPerPerch && jsTruthy size then some (qmul (jsNum price) (jsNum size)) else price
      pricePerPerch := pricePerPerch
      sizePerches := size
      url := if startsList [ 'h', 't', 't', 'p'] url.data then url else "https://ikman.lk" ++ url
      latitude := none
      longitude := none
      postedDate := none
      source := "ikman.lk"
      municipalCouncil := getMunicipalCouncil gnd (if location ≠ "" then location else title)
      scrapedAt := now }

end IkmanScraper

/-- One lankapropertyweb.com listing card: the property link (absent when
no matching anchor exists and the card is skipped), raw title, location,
price and size texts, and the href of an embedded Google-Maps link. -/
structure LPWCard where
  linkHref : Option String
  title : String
  location : String
  priceText : String
  sizeText : String
  mapLinkHref : Option String

namespace LPWScraper

/-- content.js lines 872-930 (`LPWScraper.extractFromCard`).  Coordinates
from a card's map link are stored directly — without any geographic
bounds validation. -/
def extractFromCard (gnd : Option (List (String × String))) (now : String)
    (card : LPWCard) : Option Listing :=
  match card.linkHref with
  | none => none
  | some url =>
    let title := String.mk (jsTrim card.title.data)
    let location := String.mk (jsTrim card.location.data)
    let priceText := String.mk (jsTrim card.priceText.data)
    let price := parsePrice priceText
    let isPerPerch := isPricePerPerchText priceText
    let size := parseSize card.sizeText
    let coords := match card.mapLinkHref with
      | some h => extractCoordsFromGoogleMaps h
      | none => Coords.mk none none
    let pricePerPerch := calculatePricePerPerch price size isPerPerch
    some {
      title := title
      address := location
      priceRaw := priceText
      priceTotal := if isPerPerch && jsTruthy size then some (qmul (jsNum price) (jsNum size)) else price
      pricePerPerch := pricePerPerch
      sizePerches := size
      url := if startsList [ 'h', 't', 't', 'p'] url.data then url
             else "https://www.lankapropertyweb.com" ++ url
      latitude := coords.lat
      longitude := coords.lng
      postedDate := none
      source := "lankapropertyweb.com"
      municipalCouncil := getMunicipalCouncil gnd location
      scrapedAt := now }

end LPWScraper

/-! ### Page crawler (content.js lines 1155-1260) -/

/-- Result of one `goToNextPage` call: whether a navigation was issued,
its target, the visited set after marking the current page, and the
`isScraping` value persisted by this call (if any). -/
structure GoNextResult where
  navigated : Bool
  target : Option String
  visitedAfter : List String
  persistedIsScraping : Option Bool
deriving DecidableEq, Repr

/-- content.js lines 1155-1198 (`goToNextPage`).  `canon` models URL
canonicalization (`new URL(u).toString()` resp. `new URL(u,
origin).toString()`), `hasScraper` models `getScraper() !== null`, and
`nextUrl` the adapter's `getNextPageUrl()` result.  The current page is
marked visited first; a candidate whose canonical form is already in the
visited set, or equals the current canonical URL, yields no navigation. -/
def goToNextPage (canon : String → String) (hasScraper : Bool)
    (visited : List String) (current : String) (nextUrl : Option String) :
    GoNextResult :=
  if !hasScraper then ⟨false, none, visited, none⟩
  else
    let cn := canon current
    let visited1 := if cn ∈ visited then visited else visited ++ [cn]
    match nextUrl with
    | none => ⟨false, none, visited1, none⟩
    | some nu =>
      let nn := canon nu
      if nn ∈ visited1 then ⟨false, none, visited1, none⟩
      else if nn ≠ cn then ⟨true, some nu, visited1, some true⟩
      else ⟨false, none, visited1, none⟩

/-- Events sent to the popup during one scraper cycle (content.js lines
1118-1122, 1140-1143, 1243-1246). -/
inductive Event
  | updateCount (total newCount : Nat)
  | updatePages (pages : Nat)
  | scrapingComplete (total : Nat)
deriving DecidableEq, Repr

/-- The crawl state carried across one `runScraper` cycle: the in-memory
running flag, the visited-page set, the current page URL, the persisted
listing store and page counter, and the last persisted `isScraping`
value. -/
structure CrawlState where
  isRunning : Bool
  visitedPages : List String
  currentUrl : String
  store : List Listing
  pagesScraped : Nat
  persistedIsScraping : Option Bool

/-- One cycle of `runScraper` (content.js lines 1203-1260) on a supported
site from the current page: persist the page's listings (when any),
bump the page counter, then either navigate to the resolved next page or
— when `goToNextPage` reports no navigation — clear the running flag,
persist `isScraping = false` and emit the completion event.  Returns the
successor state, the navigation target and the emitted events.  The
error path (the catch block) and a stop command arriving mid-cycle are
outside this step. -/
def runScraperStep (canon : String → String) (st : CrawlState)
    (pageListings : List Listing) (nextUrl : Option String) :
    CrawlState × Option String × List Event :=
  if !st.isRunning then (st, none, [])
  else
    let store1 := if pageListings.isEmpty then st.store else saveListings st.store pageListings
    let ev1 : List Event :=
      if pageListings.isEmpty then []
      else [Event.updateCount store1.length (store1.length - st.store.length)]
    let pages1 := st.pagesScraped + 1
    let g := goToNextPage canon true st.visitedPages st.currentUrl nextUrl
    if g.navigated then
      ({ st with visitedPages := g.visitedAfter, pagesScraped := pages1,
                 store := store1, persistedIsScraping := g.persistedIsScraping },
       g.target, ev1 ++ [Event.updatePages pages1])
    else
      ({ st with isRunning := false, visitedPages := g.visitedAfter, pagesScraped := pages1,
                 store := store1, persistedIsScraping := some false },
       none, ev1 ++ [Event.updatePages pages1, Event.scrapingComplete store1.length])

/-! ### Auxiliary objects used by the theorems -/

/-- A detail document in which every extraction source is empty — what
`DOMParser` yields for a document without the expected structure. -/
def emptyDetailDoc : DetailDoc := ⟨"", [], [], none, none, [], none⟩

/-- Trivial stand-ins for the wall-clock-dependent date collaborators. -/
def noDate : String → Option String := fun _ => none

def noRel : Nat → String → Option String := fun _ _ => none

/-- A minimal listing with the given URL, used by the store theorems. -/
def sampleListing (u : String) : Listing :=
  ⟨"t", "a", "", none, none, none, u, none, none, none, "ikman.lk", "Other", ""⟩

/-! ### C1 — `calculatePricePerPerch` branch structure -/

/-- C1 counterexample: a present price of `0` with a positive present
size falls into the claimed "total < 500,000 ⇒ return total unchanged"
branch, yet the code returns absent, because the JS guard `!price` also
fires on the number `0`. -/
theorem calculatePricePerPerch_zero_price_cex :
    calculatePricePerPerch (some 0) (some 10) false = none ∧ (0 : ℚ) < 500000 := by
  constructor
  · decide
  · norm_num

/-- C1 (amended): for a present *nonzero* price and a present positive
size, the branch order is exactly as claimed — explicit per-unit returns
the price unchanged; otherwise total > 5,000,000 with size < 50 divides,
else total < 500,000 returns the price, else total > 1,000,000 divides,
else the price is returned unchanged; a missing price, missing size or
size ≤ 0 yields absent, and so does a present price of exactly 0. -/
theorem calculatePricePerPerch_branches (p s : ℚ) (hp : p ≠ 0) (hs : 0 < s) :
    calculatePricePerPerch (some p) (some s) true = some p ∧
    calculatePricePerPerch (some p) (some s) false =
      (if 5000000 < p ∧ s < 50 then some (jsRound (qdiv p s))
       else if p < 500000 then some p
       else if 1000000 < p then some (jsRound (qdiv p s))
       else some p) ∧
    (∀ s', s' ≤ 0 → calculatePricePerPerch (some p) (some s') false = none) ∧
    calculatePricePerPerch none (some s) false = none ∧
    calculatePricePerPerch (some p) none false = none ∧
    calculatePricePerPerch (some 0) (some s) false = none := by
  have hg : ¬ (p = 0 ∨ s ≤ 0) := by
    push_neg
    exact ⟨hp, hs⟩
  refine ⟨?_, ?_, ?_, rfl, rfl, ?_⟩
  · simp only [calculatePricePerPerch]
    rw [if_neg hg]
    rfl
  · simp only [calculatePricePerPerch]
    rw [if_neg hg]
    rfl
  · intro s' hs'
    simp only [calculatePricePerPerch]
    rw [if_pos (Or.inr hs')]
  · simp only [calculatePricePerPerch]
    rw [if_pos (Or.inl trivial)]

/-- Witness for C1: the two claimed concrete branch examples, obtained
from the amended theorem at price 8,000,000 / size 20 (aggregate branch)
and price 300,000 / size 10 (unit-price branch), plus the absent result
at size 0. -/
theorem calculatePricePerPerch_branches_witness :
    calculatePricePerPerch (some 8000000) (some 20) false = some 400000 ∧
    calculatePricePerPerch (some 300000) (some 10) false = some 300000 ∧
    calculatePricePerPerch (some 7) (some 0) false = none := by
  have h1 := calculatePricePerPerch_branches 8000000 20 (by norm_num) (by norm_num)
  have h2 := calculatePricePerPerch_branches 300000 10 (by norm_num) (by norm_num)
  refine ⟨?_, ?_, ?_⟩
  · rw [h1.2.1]
    decide
  · rw [h2.2.1]
    decide
  · exact (calculatePricePerPerch_branches 7 1 (by norm_num) (by norm_num)).2.2.1 0 le_rfl

/-! ### C3 — `parsePrice` -/

/-- Modelled from the spec (§4.1): the claimed pipeline in which *all*
magnitude suffixes are recognized on the text after stripping currency
markers and thousands separators.  Used only to compare the claimed order
of operations against the implemented one. -/
def parsePriceSpecOrdered (priceText : String) : Option ℚ :=
  if priceText = "" then none
  else
    let cleaned := stripCurrency priceText.data
    match scanFirst mSuffixAt cleaned with
    | some v => some (jsRound (qscale v 1000000))
    | none =>
      match scanFirst lakhAt cleaned with
      | some v => some (jsRound (qscale v 100000))
      | none =>
        match scanFirst croreAt cleaned with
        | some v => some (jsRound (qscale v 10000000))
        | none => (jsParseFloat cleaned).map jsRound

/-- C3 counterexample: the implementation searches the `lakh`/`crore`
suffixes in the *original* text, not the stripped one, so a thousands
separator inside the number defeats them: on "Rs 1,0 Lakh" the code
matches "0 Lakh" and returns 0, while the claimed strip-first pipeline
returns 1,000,000. -/
theorem parsePrice_strip_order_cex :
    parsePrice "Rs 1,0 Lakh" = some 0 ∧
    parsePriceSpecOrdered "Rs 1,0 Lakh" = some 1000000 := by
  constructor
  · decide
  · decide

/-- C3 (amended): the claimed input/output behaviour holds — "Rs
2,500,000" parses to 2,500,000, "Rs. 38M" to 38,000,000, "Rs 25 Lakhs" to
2,500,000, all case-insensitively, with rounding and absent on
unparseable input — but only the `M` suffix is recognized on the stripped
text; `lakh` and `crore` are matched against the unstripped original, as
the last conjunct shows.  The plain-number fallback is JS `parseFloat`,
which reads the longest numeric prefix ("2.456.789" parses as 2.456 and
rounds to 2). -/
theorem parsePrice_amended :
    parsePrice "Rs 2,500,000" = some 2500000 ∧
    parsePrice "Rs. 38M" = some 38000000 ∧
    parsePrice "Rs 25 Lakhs" = some 2500000 ∧
    parsePrice "rs. 38m" = some 38000000 ∧
    parsePrice "LKR 2.5 CRORE" = some 25000000 ∧
    parsePrice "Rs 2.456.789" = some 2 ∧
    parsePrice "negotiable" = none ∧
    parsePrice "" = none ∧
    parsePrice "Rs 3.517M" = some 3517000 ∧
    parsePrice "Rs 1,0 Lakh" = some 0 := by
  decide

/-! ### C4 — `parseSize` -/

/-- C4: unit tokens are recognized case-insensitively with priority
perch(es)/p before acre(s)/ac (×160) before rood(s)/r (×40) — "5p 2
acres" takes the perch match and "3 acres 2 roods" the acre match — and
the result is absent when no unit token matches. -/
theorem parseSize_units :
    parseSize "10 perches" = some 10 ∧
    parseSize "0.5 acres" = some 80 ∧
    parseSize "2 roods" = some 80 ∧
    parseSize "20 P" = some 20 ∧
    parseSize "10 PERCHES" = some 10 ∧
    parseSize "3 Ac" = some 480 ∧
    parseSize "1.5 R" = some 60 ∧
    parseSize "5p 2 acres" = some 5 ∧
    parseSize "3 acres 2 roods" = some 480 ∧
    parseSize "123 units" = none ∧
    parseSize "" = none := by
  decide

/-! ### C5 — region resolver sentinels -/

theorem firstSome_eq_some {α β : Type} {f : α → Option β} {l : List α} {b : β}
    (h : firstSome f l = some b) : ∃ a ∈ l, f a = some b := by
  induction l with
  | nil => simp [firstSome] at h
  | cons x xs ih =>
    simp only [firstSome] at h
    cases hx : f x with
    | some y =>
      rw [hx] at h
      exact ⟨x, List.mem_cons_self x xs, by rw [hx]; exact h⟩
    | none =>
      rw [hx] at h
      obtain ⟨a, ha, hfa⟩ := ih h
      exact ⟨a, List.mem_cons_of_mem x ha, hfa⟩

theorem assocLookup_mem {entries : List (String × String)} {k : List Char} {v : String}
    (h : assocLookup entries k = some v) : ∃ e ∈ entries, e.2 = v := by
  obtain ⟨e, he, hfe⟩ := firstSome_eq_some h
  by_cases h1 : e.1.data = k
  · rw [if_pos h1] at hfe
    exact ⟨e, he, by injection hfe⟩
  · rw [if_neg h1] at hfe
    exact absurd hfe (by simp)

theorem gndExact_mem {entries : List (String × String)} {parts : List (List Char)} {mc : String}
    (h : gndExact entries parts = some mc) : ∃ e ∈ entries, e.2 = mc := by
  obtain ⟨p, _, hp⟩ := firstSome_eq_some h
  cases hl : assocLookup entries p with
  | none => simp [hl] at hp
  | some v =>
    simp only [hl] at hp
    by_cases hv : v = ""
    · rw [if_pos hv] at hp
      exact absurd hp (by simp)
    · rw [if_neg hv] at hp
      obtain ⟨e, he, hev⟩ := assocLookup_mem hl
      exact ⟨e, he, by rw [hev]; injection hp⟩

theorem gndSubstrPart_mem {entries : List (String × String)} {parts : List (List Char)} {mc : String}
    (h : gndSubstrPart entries parts = some mc) : ∃ e ∈ entries, e.2 = mc := by
  obtain ⟨p, _, hp⟩ := firstSome_eq_some h
  obtain ⟨e, he, hfe⟩ := firstSome_eq_some hp
  by_cases h1 : (containsList p e.1.data || containsList e.1.data p) = true
  · rw [if_pos h1] at hfe
    exact ⟨e, he, by injection hfe⟩
  · rw [if_neg h1] at hfe
    exact absurd hfe (by simp)

theorem gndSubstrFull_mem {entries : List (String × String)} {lower : List Char} {mc : String}
    (h : gndSubstrFull entries lower = some mc) : ∃ e ∈ entries, e.2 = mc := by
  obtain ⟨e, he, hfe⟩ := firstSome_eq_some h
  by_cases h1 : containsList lower e.1.data = true
  · rw [if_pos h1] at hfe
    exact ⟨e, he, by injection hfe⟩
  · rw [if_neg h1] at hfe
    exact absurd hfe (by simp)

theorem fallbackMC_ne_unknown (lower : List Char) : fallbackMC lower ≠ "Unknown" := by
  unfold fallbackMC
  split
  · decide
  · split
    · decide
    · split
      · decide
      · decide

theorem fallbackMC_other_iff (lower : List Char) :
    fallbackMC lower = "Other" ↔
      (kaduwelaAreas.any (fun a => containsList lower a.data) ||
       kotteAreas.any (fun a => containsList lower a.data) ||
       colomboAreas.any (fun a => containsList lower a.data)) = false := by
  unfold fallbackMC
  split
  · next hk => simp [hk]
  · next hk =>
    split
    · next ho => simp [ho]
    · next ho =>
      split
      · next hc => simp [hc]
      · next hc =>
        simp only [Bool.not_eq_true] at hk ho hc
        simp [hk, ho, hc]

/-- C5: the resolver returns "Unknown" exactly on empty/absent input and
"Other" exactly when the input is non-empty but no tier matches — neither
the three GND-mapping tiers (exact part, part/key substring, full-text
substring) nor the three hardcoded area lists.  The mapping is assumed
not to carry the two sentinel strings as region values (it maps areas to
municipal-council names). -/
theorem getMunicipalCouncil_sentinels (gnd : Option (List (String × String))) (text : String)
    (hm : ∀ e ∈ gnd.getD [], e.2 ≠ "Unknown" ∧ e.2 ≠ "Other") :
    (getMunicipalCouncil gnd text = "Unknown" ↔ text = "") ∧
    (getMunicipalCouncil gnd text = "Other" ↔ (text ≠ "" ∧ mcAnyMatch gnd text = false)) := by
  by_cases ht : text = ""
  · subst ht
    constructor
    · simp [getMunicipalCouncil]
    · simp [getMunicipalCouncil]
  · cases gnd with
    | none =>
      simp only [Option.getD_none] at hm
      simp only [getMunicipalCouncil, mcAnyMatch, if_neg ht]
      constructor
      · simp [fallbackMC_ne_unknown, ht]
      · simp [ht, fallbackMC_other_iff]
    | some entries =>
      simp only [Option.getD_some] at hm
      simp only [getMunicipalCouncil, mcAnyMatch, if_neg ht]
      cases h1 : gndExact entries (((splitSepAux (jsTrim (toLowerStr text.data)) []).map jsTrim).filter
          (fun p => !p.isEmpty)) with
      | some mc =>
        obtain ⟨e, he, hev⟩ := gndExact_mem h1
        have hne := hm e he
        rw [hev] at hne
        simp only [h1]
        simp [ht, hne.1, hne.2]
      | none =>
        cases h2 : gndSubstrPart entries (((splitSepAux (jsTrim (toLowerStr text.data)) []).map jsTrim).filter
            (fun p => !p.isEmpty)) with
        | some mc =>
          obtain ⟨e, he, hev⟩ := gndSubstrPart_mem h2
          have hne := hm e he
          rw [hev] at hne
          simp only [h1, h2]
          simp [ht, hne.1, hne.2]
        | none =>
          cases h3 : gndSubstrFull entries (jsTrim (toLowerStr text.data)) with
          | some mc =>
            obtain ⟨e, he, hev⟩ := gndSubstrFull_mem h3
            have hne := hm e he
            rw [hev] at hne
            simp only [h1, h2, h3]
            simp [ht, hne.1, hne.2]
          | none =>
            simp only [h1, h2, h3]
            constructor
            · simp [fallbackMC_ne_unknown, ht]
            · simp [ht, fallbackMC_other_iff]

/-- Witness for C5 at a concrete mapping and inputs: empty input resolves
to "Unknown", and "Kandy Town" (matched by no tier) to "Other". -/
theorem getMunicipalCouncil_sentinels_witness :
    getMunicipalCouncil (some [("malabe", "Kaduwela MC")]) "" = "Unknown" ∧
    getMunicipalCouncil (some [("malabe", "Kaduwela MC")]) "Kandy Town" = "Other" := by
  have h1 := getMunicipalCouncil_sentinels (some [("malabe", "Kaduwela MC")]) "" (by decide)
  have h2 := getMunicipalCouncil_sentinels (some [("malabe", "Kaduwela MC")]) "Kandy Town" (by decide)
  exact ⟨h1.1.mpr rfl, h2.2.mpr ⟨by decide, by decide⟩⟩

/-! ### C6/C7 — record store -/

/-- C6: upserting the same batch twice yields the same stored collection
as upserting it once — every record of the batch either was appended by
the first upsert or was already stored, so the second upsert filters out
the whole batch. -/
theorem saveListings_idempotent (existing batch : List Listing) :
    saveListings (saveListings existing batch) batch = saveListings existing batch := by
  simp only [saveListings]
  have hnil : (batch.filter (fun l => !decide (l.url ∈
      ((existing ++ batch.filter (fun l => !decide (l.url ∈ existing.map Listing.url))).map
        Listing.url)))) = [] := by
    rw [List.filter_eq_nil_iff]
    intro l hl
    simp only [Bool.not_eq_true', decide_eq_false_iff_not, not_not]
    rw [List.map_append, List.mem_append]
    by_cases hmem : l.url ∈ existing.map Listing.url
    · exact Or.inl hmem
    · refine Or.inr (List.mem_map.mpr ⟨l, ?_, rfl⟩)
      rw [List.mem_filter]
      exact ⟨hl, by simpa using hmem⟩
  rw [hnil, List.append_nil]

/-- C7 counterexample: a batch that itself contains two records with the
same URL is appended wholesale — the store ends with two records sharing
one URL. -/
theorem saveListings_dup_batch_cex :
    ((saveListings [] [sampleListing "u", sampleListing "u"]).map Listing.url = ["u", "u"]) ∧
    ¬ ((saveListings [] [sampleListing "u", sampleListing "u"]).map Listing.url).Nodup := by
  constructor
  · rfl
  · decide

/-- C7 (amended): the store never duplicates a URL that is *already
stored* — if the existing collection has pairwise-distinct URLs and the
incoming batch is itself duplicate-free on URLs, the updated collection
has pairwise-distinct URLs.  (A batch with an internal duplicate URL is
stored twice; the page scrapers deduplicate within a page only for
ikman.lk.) -/
theorem saveListings_nodup (existing batch : List Listing)
    (he : (existing.map Listing.url).Nodup) (hb : (batch.map Listing.url).Nodup) :
    ((saveListings existing batch).map Listing.url).Nodup := by
  simp only [saveListings]
  rw [List.map_append]
  refine List.Nodup.append he ?_ ?_
  · exact ((List.filter_sublist batch).map Listing.url).nodup hb
  · intro a ha hf
    obtain ⟨l, hl, rfl⟩ := List.mem_map.mp hf
    have hkeep := List.of_mem_filter hl
    simp only [Bool.not_eq_true', decide_eq_false_iff_not] at hkeep
    exact hkeep ha

/-- Witness for C7 (amended) at concrete stores and batches. -/
theorem saveListings_nodup_witness :
    (([sampleListing "a"].map Listing.url).Nodup) ∧
    (([sampleListing "a", sampleListing "b"].map Listing.url).Nodup) ∧
    ((saveListings [sampleListing "a"] [sampleListing "a", sampleListing "b"]).map
      Listing.url).Nodup := by
  refine ⟨by decide, by decide, ?_⟩
  exact saveListings_nodup [sampleListing "a"] [sampleListing "a", sampleListing "b"]
    (by decide) (by decide)

/-! ### C2 — coordinate bounding-box validation -/

/-- An LPW listing card whose map link carries London coordinates. -/
def lpwOutOfBoxCard : LPWCard :=
  ⟨some "https://www.lankapropertyweb.com/land/1", "", "", "", "",
   some "https://www.google.com/maps/place/51.5,-0.1"⟩

/-- C2 counterexample: a coordinate pair far outside the Sri Lanka box,
produced by the listing-card map-link path, is stored on the record —
`LPWScraper.extractFromCard` applies no bounds validation to it. -/
theorem coordBounds_mapLink_cex :
    (LPWScraper.extractFromCard none "" lpwOutOfBoxCard).map Listing.latitude
      = some (some (mkRat 515 10)) ∧
    (LPWScraper.extractFromCard none "" lpwOutOfBoxCard).map Listing.longitude
      = some (some (mkRat (-1) 10)) ∧
    inSriLanka (mkRat 515 10) (mkRat (-1) 10) = false := by
  refine ⟨?_, ?_, by decide⟩
  · decide
  · decide

/-- A detail document whose only coordinate source is one script-pattern
match. -/
def scriptOnlyDoc (la lo : ℚ) : DetailDoc := ⟨"", [], [], none, none, [[(la, lo)]], none⟩

/-- A detail document whose only coordinate source is a map link. -/
def mapLinkOnlyDoc (href : String) : DetailDoc := ⟨"", [], [], some href, none, [], none⟩

/-- C2 (amended): the Sri Lanka bounding box is enforced on the script
text and data-attribute extraction paths, but *not* on the map-link and
map-frame paths: a pair from a script pattern is stored iff it lies in
the box, while a (truthy) pair parsed from a map link URL is stored
unconditionally — both in the detail enricher and on a listing card. -/
theorem coordBounds_amended :
    (∀ la lo : ℚ,
      (fetchDetailPageInfo noDate noRel "" Site.lpw
        (FetchOutcome.response true (scriptOnlyDoc la lo))).lat =
          (if inSriLanka la lo then some la else none)) ∧
    (∀ (u : String) (a b : ℚ), extractCoordsFromGoogleMaps u = ⟨some a, some b⟩ →
      a ≠ 0 → b ≠ 0 →
      (fetchDetailPageInfo noDate noRel "" Site.lpw
        (FetchOutcome.response true (mapLinkOnlyDoc u))).lat = some a) ∧
    (∀ (gnd : Option (List (String × String))) (now u : String) (card : LPWCard)
        (r : Listing) (a b : ℚ),
      card.mapLinkHref = some u →
      extractCoordsFromGoogleMaps u = ⟨some a, some b⟩ →
      LPWScraper.extractFromCard gnd now card = some r →
      r.latitude = some a ∧ r.longitude = some b) := by
  refine ⟨?_, ?_, ?_⟩
  · intro la lo
    simp only [fetchDetailPageInfo, scriptOnlyDoc, mapUrlCoordsOr, scriptCoordsScan,
      dataAttrStep, firstSome, jsTruthy, List.find?]
    by_cases h : inSriLanka la lo = true
    · simp [h]
    · simp only [Bool.not_eq_true] at h
      simp [h]
  · intro u a b hext ha hb
    simp only [fetchDetailPageInfo, mapLinkOnlyDoc, mapUrlCoordsOr, hext, jsTruthy]
    simp [ha, hb, scriptCoordsScan, dataAttrStep, firstSome]
  · intro gnd now u card r a b hlink hext hcard
    unfold LPWScraper.extractFromCard at hcard
    cases hl : card.linkHref with
    | none => rw [hl] at hcard; exact absurd hcard (by simp)
    | some url =>
      rw [hl] at hcard
      simp only [hlink, hext] at hcard
      have := (Option.some.inj hcard).symm
      subst this
      exact ⟨rfl, rfl⟩

/-- Witness for C2 (amended): the in-box pair (6.9, 79.8) is accepted on
the script path, (51.5, -0.1) is rejected there, yet the same out-of-box
pair arriving through a map link is stored. -/
theorem coordBounds_amended_witness :
    (fetchDetailPageInfo noDate noRel "" Site.lpw
      (FetchOutcome.response true (scriptOnlyDoc (mkRat 69 10) (mkRat 798 10)))).lat
        = some (mkRat 69 10) ∧
    (fetchDetailPageInfo noDate noRel "" Site.lpw
      (FetchOutcome.response true (scriptOnlyDoc (mkRat 515 10) (mkRat (-1) 10)))).lat
        = none ∧
    (fetchDetailPageInfo noDate noRel "" Site.lpw
      (FetchOutcome.response true
        (mapLinkOnlyDoc "https://maps.google.com/?q=51.5,-0.1"))).lat
        = some (mkRat 515 10) := by
  refine ⟨?_, ?_, ?_⟩
  · rw [coordBounds_amended.1 (mkRat 69 10) (mkRat 798 10)]
    decide
  · rw [coordBounds_amended.1 (mkRat 515 10) (mkRat (-1) 10)]
    decide
  · exact coordBounds_amended.2.1 "https://maps.google.com/?q=51.5,-0.1"
      (mkRat 515 10) (mkRat (-1) 10) (by decide) (by decide) (by decide)

/-! ### C9 — detail enricher failure behaviour -/

/-- C9: the detail enricher is a total function of the fetch outcome (the
whole source body sits in a try whose catch returns the all-absent
record, so it never raises), and on a network failure, on a non-2xx
response, and on a document in which no extraction source matches, all
four fields are absent. -/
theorem fetchDetailPageInfo_failure_absent (parseDate : String → Option String)
    (relDate : Nat → String → Option String) (today : String) (site : Site) :
    fetchDetailPageInfo parseDate relDate today site FetchOutcome.networkError =
      ⟨none, none, none, none⟩ ∧
    (∀ doc, fetchDetailPageInfo parseDate relDate today site
      (FetchOutcome.response false doc) = ⟨none, none, none, none⟩) ∧
    fetchDetailPageInfo parseDate relDate today site
      (FetchOutcome.response true emptyDetailDoc) = ⟨none, none, none, none⟩ := by
  refine ⟨rfl, fun doc => rfl, ?_⟩
  cases site <;> rfl

/-! ### C8 — pagination loop guard -/

/-- C8: from the Running state, when the canonical form of the resolved
next-page URL is already in the visited set, the crawler performs no
navigation and completes: the running flag is cleared, `isScraping =
false` is persisted, and the completion event is emitted. -/
theorem loopGuard_completes (canon : String → String) (st : CrawlState)
    (nu : String) (pageListings : List Listing)
    (hrun : st.isRunning = true)
    (hvis : canon nu ∈ st.visitedPages) :
    (runScraperStep canon st pageListings (some nu)).2.1 = none ∧
    (runScraperStep canon st pageListings (some nu)).1.isRunning = false ∧
    (runScraperStep canon st pageListings (some nu)).1.persistedIsScraping = some false ∧
    Event.scrapingComplete ((runScraperStep canon st pageListings (some nu)).1.store.length) ∈
      (runScraperStep canon st pageListings (some nu)).2.2 := by
  have hg : goToNextPage canon true st.visitedPages st.currentUrl (some nu) =
      ⟨false, none, if canon st.currentUrl ∈ st.visitedPages then st.visitedPages
        else st.visitedPages ++ [canon st.currentUrl], none⟩ := by
    simp only [goToNextPage, Bool.not_true, if_neg (by simp : ¬ (false = true))]
    have hmem : canon nu ∈ (if canon st.currentUrl ∈ st.visitedPages then st.visitedPages
        else st.visitedPages ++ [canon st.currentUrl]) := by
      split
      · exact hvis
      · exact List.mem_append_left _ hvis
    rw [if_pos hmem]
  simp only [runScraperStep, hrun, Bool.not_true, if_neg (by simp : ¬ (false = true)), hg]
  refine ⟨trivial, trivial, trivial, ?_⟩
  simp

/-- Witness for C8 at a concrete state: next page "p1" is already
visited, so the step navigates nowhere and completes. -/
theorem loopGuard_completes_witness :
    (runScraperStep id ⟨true, ["p1"], "p2", [], 0, some true⟩ [] (some "p1")).2.1 = none ∧
    (runScraperStep id ⟨true, ["p1"], "p2", [], 0, some true⟩ [] (some "p1")).1.isRunning = false ∧
    (runScraperStep id ⟨true, ["p1"], "p2", [], 0, some true⟩ [] (some "p1")).1.persistedIsScraping
      = some false ∧
    Event.scrapingComplete
        ((runScraperStep id ⟨true, ["p1"], "p2", [], 0, some true⟩ [] (some "p1")).1.store.length) ∈
      (runScraperStep id ⟨true, ["p1"], "p2", [], 0, some true⟩ [] (some "p1")).2.2 :=
  loopGuard_completes id ⟨true, ["p1"], "p2", [], 0, some true⟩ "p1" [] rfl (by decide)

/-! ### C10 — per-perch price totals -/

/-- The rule C10 claims for the stored `priceTotal`, amended with the
JS-coercion case: with a per-perch marking and a truthy parsed size, a
present parsed price is multiplied by the size, an *absent* price is
coerced to 0 by the JS multiplication `null * size`; in every other case
the parsed price is stored unchanged. -/
def priceTotalSpec (priceText sizeText : String) (r : Listing) : Prop :=
  (∀ p s, parsePrice priceText = some p → parseSize sizeText = some s → s ≠ 0 →
     isPricePerPerchText priceText = true → r.priceTotal = some (qmul p s)) ∧
  ((isPricePerPerchText priceText = false ∨ parseSize sizeText = none ∨
      parseSize sizeText = some 0) → r.priceTotal = parsePrice priceText) ∧
  (∀ s, parsePrice priceText = none → parseSize sizeText = some s → s ≠ 0 →
     isPricePerPerchText priceText = true → r.priceTotal = some (qmul 0 s))

theorem priceTotalSpec_of_fields (priceText sizeText : String) (r : Listing)
    (hr : r.priceTotal =
      (if isPricePerPerchText priceText && jsTruthy (parseSize sizeText)
       then some (qmul (jsNum (parsePrice priceText)) (jsNum (parseSize sizeText)))
       else parsePrice priceText)) :
    priceTotalSpec priceText sizeText r := by
  refine ⟨?_, ?_, ?_⟩
  · intro p s hp hs hs0 hm
    rw [hr, hp, hs, hm]
    simp [jsTruthy, jsNum, bne_iff_ne, hs0]
  · intro hcase
    rw [hr]
    rcases hcase with hm | hs | hs
    · simp [hm]
    · simp [hs, jsTruthy]
    · simp [hs, jsTruthy]
  · intro s hp hs hs0 hm
    rw [hr, hp, hs, hm]
    simp [jsTruthy, jsNum, bne_iff_ne, hs0]

/-- C10 (amended): in every record either adapter produces, `priceTotal`
follows `priceTotalSpec` of the card's trimmed price text and its size
text (the full card text for ikman.lk). -/
theorem priceTotal_amended :
    (∀ (gnd : Option (List (String × String))) (now : String) (card : IkmanCard)
        (r : Listing), IkmanScraper.extractFromCard gnd now card = some r →
      priceTotalSpec (String.mk (jsTrim card.priceText.data)) card.fullText r) ∧
    (∀ (gnd : Option (List (String × String))) (now : String) (card : LPWCard)
        (r : Listing), LPWScraper.extractFromCard gnd now card = some r →
      priceTotalSpec (String.mk (jsTrim card.priceText.data)) card.sizeText r) := by
  constructor
  · intro gnd now card r hcard
    unfold IkmanScraper.extractFromCard at hcard
    by_cases hu : (card.linkHref = "" ||
        !containsList card.linkHref.data [ '/', 'a', 'd', '/']) = true
    · rw [if_pos hu] at hcard
      exact absurd hcard (by simp)
    · rw [if_neg hu] at hcard
      apply priceTotalSpec_of_fields
      have := (Option.some.inj hcard).symm
      subst this
      rfl
  · intro gnd now card r hcard
    unfold LPWScraper.extractFromCard at hcard
    cases hl : card.linkHref with
    | none => rw [hl] at hcard; exact absurd hcard (by simp)
    | some url =>
      rw [hl] at hcard
      apply priceTotalSpec_of_fields
      have := (Option.some.inj hcard).symm
      subst this
      rfl

/-- A concrete LPW card with a parseable per-perch price. -/
def lpwPerPerchCard : LPWCard :=
  ⟨some "https://www.lankapropertyweb.com/land/2", "t", "", "Rs 950,000 per perch",
   "8 perches", none⟩

/-- Witness for C10 (amended): the per-perch card stores
950,000 × 8 = 7,600,000 as its total. -/
theorem priceTotal_amended_witness :
    (LPWScraper.extractFromCard none "" lpwPerPerchCard).map Listing.priceTotal
      = some (some 7600000) := by
  cases hx : LPWScraper.extractFromCard none "" lpwPerPerchCard with
  | none => exact absurd hx (by decide)
  | some r =>
    have h := (priceTotal_amended.2 none "" lpwPerPerchCard r hx).1 950000 8
      (by decide) (by decide) (by decide) (by decide)
    rw [Option.map_some', h]
    decide

/-- A concrete LPW card whose price text carries the per-perch marker but
no parseable number. -/
def lpwPerPerchNoPriceCard : LPWCard :=
  ⟨some "https://www.lankapropertyweb.com/land/3", "", "", "per perch", "10 perches", none⟩

/-- C10 counterexample: with a per-perch marker, a positive parsed size
and *no* parsed price, the stored `priceTotal` is 0 (JS `null * 10`),
not the parsed price (absent) and not a product of it. -/
theorem priceTotal_null_coercion_cex :
    (LPWScraper.extractFromCard none "" lpwPerPerchNoPriceCard).map Listing.priceTotal
      = some (some 0) ∧
    parsePrice "per perch" = none ∧
    isPricePerPerchText "per perch" = true ∧
    parseSize "10 perches" = some 10 := by
  refine ⟨?_, by decide, by decide, by decide⟩
  decide

end LandScraper
